import Mathlib

set_option maxRecDepth 8192

/-!
Verification of the go-corefx health-aggregation component (`healthfx.go`)
and the reflective required-field checker (`corefx.go`, `checkRequired`).

The Go code is shallowly embedded:
* indicator identity (Go interface/pointer identity used as map key) is a `Nat`;
* Go `error` values are `Option Err` (`none` = `nil`);
* the per-indicator failure counters are `atomic.Int32` in Go, so counter
  arithmetic is `Int` reduced by `wrap32` (two's-complement wrap at 32 bits),
  exactly the wrap-around semantics of `atomic.Int32.Add`;
* Go maps keyed by indicator identity become association lists with
  insert-overwrite semantics (`insertMap`), so keys stay unique;
* each probe records the identities it invoked (`calls`), mirroring the fact
  that the Go loop body starts with the indicator call unconditionally.
-/

/-- Go `error` values: the package-level sentinel `ErrUnavailable`
(`errors.New("err unavailable")` in `healthfx.go`) is identified by
constructor, all other errors carry their message. -/
inductive Err : Type where
  | unavailable : Err
  | msg : String → Err
deriving DecidableEq, Repr

/-- `var ErrUnavailable = errors.New("err unavailable")`. -/
def ErrUnavailable : Err := .unavailable

/-- `HealthStatusUp = "UP"`. -/
def HealthStatusUp : String := "UP"

/-- `HealthStatusDown = "DOWN"`. -/
def HealthStatusDown : String := "DOWN"

/-- `HealthUnavailable = "UNAVAILABLE"`. -/
def HealthUnavailable : String := "UNAVAILABLE"

/-- `type HealthStatus struct { Status string; Err error }`. -/
structure HealthStatus : Type where
  Status : String
  Err : Option Err
deriving DecidableEq, Repr

/-- A registered `HealthIndicator`: `id` is its object identity (the Go code
keys its maps by interface identity); `readinessThreshold?` is `some t` iff
the dynamic type also implements `ReadinessThresholder` with
`ReadinessThreshold() == t`, and `none` otherwise. -/
structure Indicator : Type where
  id : Nat
  readinessThreshold? : Option Int
deriving DecidableEq, Repr

/-- The type switch in `NewHealth`: the indicator is kept iff it implements
`ReadinessThresholder` and `ReadinessThreshold() >= 0`. -/
def isThresholded (s : Indicator) : Bool :=
  match s.readinessThreshold? with
  | some t => decide (0 ≤ t)
  | none => false

/-- The threshold value stored by `NewHealth`
(`thresholder.ReadinessThreshold()`); `-1` is the documented default for
indicators that do not implement `ReadinessThresholder` (never stored,
because such indicators are filtered out first). -/
def thresholdVal (s : Indicator) : Int :=
  (s.readinessThreshold?).getD (-1)

/-- Lookup in an association list modelling a Go map. -/
def lookupMap {α : Type} : List (Nat × α) → Nat → Option α
  | [], _ => none
  | (k', v) :: rest, k => if k' = k then some v else lookupMap rest k

/-- Go map assignment `m[k] = v`: overwrite the existing entry if present,
otherwise add one.  Keys stay unique. -/
def insertMap {α : Type} : List (Nat × α) → Nat → α → List (Nat × α)
  | [], k, v => [(k, v)]
  | (k', v') :: rest, k, v =>
    if k' = k then (k, v) :: rest else (k', v') :: insertMap rest k v

/-- Mutation through the pointer stored in a Go map: update the entry for `k`
if present, do nothing otherwise (the Go code guards every counter mutation
with `if cnt, ok := p.notReadyCount[r]; ok`). -/
def updateMap {α : Type} : List (Nat × α) → Nat → (α → α) → List (Nat × α)
  | [], _, _ => []
  | p :: rest, k, f => (if p.1 = k then (p.1, f p.2) else p) :: updateMap rest k f

/-- Number of entries of an association list carrying key `k`. -/
def keyCount {α : Type} : List (Nat × α) → Nat → Nat
  | [], _ => 0
  | p :: rest, k => (if p.1 = k then 1 else 0) + keyCount rest k

/-- Two's-complement wrap to the `int32` range `[-2^31, 2^31)`; this is the
overflow behaviour of Go's `atomic.Int32.Add` and of the conversion
`int32(threshold)`. -/
def wrap32 (x : Int) : Int :=
  (x + 2147483648) % 4294967296 - 2147483648

/-- `type Health struct { checkers []HealthIndicator;
maxNotReadyConfig map[HealthIndicator]int;
notReadyCount map[HealthIndicator]*atomic.Int32 }`.
Counter values are the `int32` contents of the atomics. -/
structure Health : Type where
  checkers : List Indicator
  maxNotReadyConfig : List (Nat × Int)
  notReadyCount : List (Nat × Int)
deriving DecidableEq, Repr

/-- `NewHealth`: filter the thresholded indicators, then fill both maps,
thresholds from `ReadinessThreshold()` and counters from `&atomic.Int32{}`
(zero value). -/
def NewHealth (checkers : List Indicator) : Health :=
  let thresholdedReadinessReporters := checkers.filter isThresholded
  { checkers := checkers
    maxNotReadyConfig :=
      thresholdedReadinessReporters.foldl
        (fun m s => insertMap m s.id (thresholdVal s)) []
    notReadyCount :=
      thresholdedReadinessReporters.foldl
        (fun m s => insertMap m s.id 0) [] }

/-- `p.notReadyCount[l].Load()`.  The Go code only evaluates this when the
indicator has a threshold entry, and `NewHealth` gives the two maps the same
key set, so the lookup always succeeds there; the `getD 0` default is never
reached from constructed states. -/
def getCount (p : Health) (k : Nat) : Int :=
  (lookupMap p.notReadyCount k).getD 0

/-- Per-probe behaviour of the registered indicators: for each identity, the
result (`none` = `nil`) of its `Liveness`/`Readiness` call during this probe. -/
abbrev Env : Type := Nat → Option Err

/-- Result of one aggregate probe: the returned pair
`(bool, map[HealthIndicator]HealthStatus)`, the `Health` state after the
probe, and the trace of indicator identities whose check was invoked. -/
structure ProbeOut : Type where
  ok : Bool
  res : List (Nat × HealthStatus)
  state : Health
  calls : List Nat
deriving DecidableEq, Repr

/-- One iteration of the loop body of `Health.Liveness`. -/
def livenessStep (env : Env) (acc : ProbeOut) (l : Indicator) : ProbeOut :=
  let acc := { acc with calls := acc.calls ++ [l.id] }
  match env l.id with
  | some e =>
    { acc with ok := false
               res := insertMap acc.res l.id ⟨HealthStatusDown, some e⟩ }
  | none =>
    match lookupMap acc.state.maxNotReadyConfig l.id with
    | some threshold =>
      let notReadyCnt := getCount acc.state l.id
      if wrap32 threshold < notReadyCnt then
        { acc with ok := false
                   res := insertMap acc.res l.id ⟨HealthStatusDown, some ErrUnavailable⟩ }
      else
        { acc with res := insertMap acc.res l.id ⟨HealthStatusUp, none⟩ }
    | none =>
      { acc with res := insertMap acc.res l.id ⟨HealthStatusUp, none⟩ }

/-- `func (p *Health) Liveness(ctx) (bool, map[HealthIndicator]HealthStatus)`;
the comparison `notReadyCnt > int32(threshold)` is
`wrap32 threshold < notReadyCnt`. -/
def Liveness (p : Health) (env : Env) : ProbeOut :=
  p.checkers.foldl (livenessStep env) ⟨true, [], p, []⟩

/-- One iteration of the loop body of `Health.Readiness`; `cnt.Store(0)` on
success, `cnt.Add(1)` (with `int32` wrap-around) on failure, both only when
the counter entry exists. -/
def readinessStep (env : Env) (acc : ProbeOut) (r : Indicator) : ProbeOut :=
  let acc := { acc with calls := acc.calls ++ [r.id] }
  match env r.id with
  | none =>
    { acc with
        res := insertMap acc.res r.id ⟨HealthStatusUp, none⟩
        state := { acc.state with
                     notReadyCount := updateMap acc.state.notReadyCount r.id (fun _ => 0) } }
  | some e =>
    { acc with
        ok := false
        res := insertMap acc.res r.id ⟨HealthUnavailable, some e⟩
        state := { acc.state with
                     notReadyCount :=
                       updateMap acc.state.notReadyCount r.id (fun c => wrap32 (c + 1)) } }

/-- `func (p *Health) Readiness(ctx) (bool, map[HealthIndicator]HealthStatus)`. -/
def Readiness (p : Health) (env : Env) : ProbeOut :=
  p.checkers.foldl (readinessStep env) ⟨true, [], p, []⟩

/-- State evolution under a sequence of Readiness probes. -/
def readinessRun (p : Health) (envs : List Env) : Health :=
  envs.foldl (fun st e => (Readiness st e).state) p

/-- State evolution under a sequence of Liveness probes. -/
def livenessRun (p : Health) (envs : List Env) : Health :=
  envs.foldl (fun st e => (Liveness st e).state) p

/-- Environment in which every indicator check fails. -/
def envFail : Env := fun _ => some (.msg "not ready")

/-- Environment in which every indicator check succeeds. -/
def envOK : Env := fun _ => none

/-- The `HealthStatus` entry `Health.Liveness` writes for identity `k`
(read off the three branches of the loop body). -/
def livenessStatusOf (p : Health) (env : Env) (k : Nat) : HealthStatus :=
  match env k with
  | some e => ⟨HealthStatusDown, some e⟩
  | none =>
    match lookupMap p.maxNotReadyConfig k with
    | some threshold =>
      if wrap32 threshold < getCount p k then ⟨HealthStatusDown, some ErrUnavailable⟩
      else ⟨HealthStatusUp, none⟩
    | none => ⟨HealthStatusUp, none⟩

/-- Whether identity `k` leaves the aggregate liveness flag untouched. -/
def liveOK (p : Health) (env : Env) (k : Nat) : Bool :=
  match env k with
  | some _ => false
  | none =>
    match lookupMap p.maxNotReadyConfig k with
    | some threshold => decide (getCount p k ≤ wrap32 threshold)
    | none => true

/-- The `HealthStatus` entry `Health.Readiness` writes for identity `k`. -/
def readinessStatusOf (env : Env) (k : Nat) : HealthStatus :=
  match env k with
  | none => ⟨HealthStatusUp, none⟩
  | some e => ⟨HealthUnavailable, some e⟩

/-- Counter evolution over one Readiness probe for an identity occurring
`m` times in the checker list. -/
def countAfter (env : Env) (k : Nat) (m : Nat) (c : Int) : Int :=
  if m = 0 then c
  else
    match env k with
    | none => 0
    | some _ => wrap32 (c + m)

/-- Identity well-formedness of a registration list: equal identity means
equal indicator (the same Go object). -/
def WFList (cs : List Indicator) : Prop :=
  ∀ a ∈ cs, ∀ b ∈ cs, a.id = b.id → a = b

instance : DecidablePred WFList := fun cs => by
  unfold WFList; infer_instance

/-- The counter mutation `Health.Readiness` performs for identity `k`
(`Store(0)` on success, wrapping `Add(1)` on failure). -/
def countUpd (env : Env) (k : Nat) : Int → Int :=
  match env k with
  | none => fun _ => 0
  | some _ => fun c => wrap32 (c + 1)

/-- The aggregator state for a single registered indicator of identity `0`
with declared threshold `t` and current failure counter `c`; this is
`NewHealth` on that one indicator once the counter has evolved to `c`. -/
def oneState (t c : Int) : Health :=
  ⟨[⟨0, some t⟩], [(0, t)], [(0, c)]⟩

/-!
### Embedding of `checkRequired` (`corefx.go`)

A Go config struct is a tree of named fields.  Field identity (the pointer
`valueField.Addr().Interface()`) is the access path from the root struct,
a `List Nat` of field indices; interface equality of two field pointers is
equality of paths (distinct fields always have distinct `(address, type)`
pairs, even where a struct shares its address with its first field).
`RequiredValues()` therefore becomes a list of paths; its entries are field
pointers by construction, so the `reflect.Pointer` kind check of the source
never fails and has no error branch in the model.
-/

mutual
/-- A field's value: either a non-struct value carrying only whether
`reflect.Value.IsZero` holds for it, or a nested struct. -/
inductive FieldVal : Type where
  | prim (isZero : Bool) : FieldVal
  | strct (fields : GoFields) : FieldVal

/-- One struct field: Go field name, `json` tag, `mapstructure` tag
(empty string = tag absent), and its value. -/
inductive GoField : Type where
  | mk (name jsonTag mapTag : String) (val : FieldVal) : GoField

/-- The field list of a struct, in declaration order. -/
inductive GoFields : Type where
  | nil : GoFields
  | cons (f : GoField) (fs : GoFields) : GoFields
end

def GoField.name : GoField → String
  | .mk n _ _ _ => n

def GoField.jsonTag : GoField → String
  | .mk _ j _ _ => j

def GoField.mapTag : GoField → String
  | .mk _ _ m _ => m

def GoField.val : GoField → FieldVal
  | .mk _ _ _ v => v

mutual
/-- `reflect.Value.IsZero`: a struct is zero iff all its fields are zero. -/
def FieldVal.isZero : FieldVal → Bool
  | .prim z => z
  | .strct fs => GoFields.allZero fs

def GoFields.allZero : GoFields → Bool
  | .nil => true
  | .cons (.mk _ _ _ v) fs => FieldVal.isZero v && GoFields.allZero fs
end

/-- The serialized name used in the error message:
`field.Tag.Get("json")`, falling back to `field.Tag.Get("mapstructure")`,
falling back to `field.Name`. -/
def GoField.configName (f : GoField) : String :=
  if f.jsonTag ≠ "" then f.jsonTag
  else if f.mapTag ≠ "" then f.mapTag
  else f.name

/-- Content of the error built by `checkRequired`
(`fmt.Errorf("[%s] is config, ...", field.Name, configName, upper)`.) -/
structure ReqError : Type where
  FieldName : String
  ConfigName : String
deriving DecidableEq, Repr

def mkReqError (f : GoField) : ReqError :=
  ⟨f.name, f.configName⟩

/-- `strings.ToUpper` restricted to the ASCII tag names used here, written
so that it evaluates by kernel reduction. -/
def toUpperStr (s : String) : String :=
  ⟨s.data.map Char.toUpper⟩

/-- The full rendered message of the returned error. -/
def ReqError.message (e : ReqError) : String :=
  "[" ++ e.FieldName ++ "] is config, consider setting value: [" ++
    e.ConfigName ++ "] in config file or [" ++ toUpperStr e.ConfigName ++ "] in env"

mutual
/-- The outer loop of `checkRequired`: `for _, ptr := range vals`; `rem` is
the remaining required pointers, `vals` the full list (passed whole to every
nested-struct recursion). -/
def loopVals (base : List Nat) (s : GoFields) (rem : List (List Nat))
    (vals : List (List Nat)) : Option ReqError :=
  match rem with
  | [] => none
  | v :: rest =>
    match scanFields base 0 s v vals with
    | some e => some e
    | none => loopVals base s rest vals
termination_by (sizeOf s, rem.length + 1)

/-- The inner loop: `for i := 0; i < c.NumField(); i++`.  For every struct
field it first recurses with the full `vals`; then it compares the field's
address (`base ++ [idx]`) against the current required pointer `v`, and on a
match errors iff the required value is zero. -/
def scanFields (base : List Nat) (idx : Nat) (fields : GoFields)
    (v : List Nat) (vals : List (List Nat)) : Option ReqError :=
  match fields with
  | .nil => none
  | .cons (.mk n j m fv) rest =>
    match
      (match fv with
       | .strct fs => loopVals (base ++ [idx]) fs vals vals
       | .prim _ => none) with
    | some e => some e
    | none =>
      if base ++ [idx] = v then
        if FieldVal.isZero fv = true then some (mkReqError (.mk n j m fv))
        else scanFields base (idx + 1) rest v vals
      else scanFields base (idx + 1) rest v vals
termination_by (sizeOf fields, 0)
end

/-- `func checkRequired(s any, vals ...any) error`; `base` is the address of
`s` (the empty path for the root call from `LoadJSONConfig`). -/
def checkRequired (base : List Nat) (s : GoFields) (vals : List (List Nat)) :
    Option ReqError :=
  loopVals base s vals vals

/-- Field at index `i` of a struct. -/
def nthField : GoFields → Nat → Option GoField
  | .nil, _ => none
  | .cons f _, 0 => some f
  | .cons _ fs, n + 1 => nthField fs n

/-- The field a required pointer (an access path) points at, if any. -/
def resolveField (s : GoFields) : List Nat → Option GoField
  | [] => none
  | i :: rest =>
    match nthField s i with
    | none => none
    | some f =>
      match rest with
      | [] => some f
      | _ :: _ =>
        match f with
        | .mk _ _ _ (.strct sub) => resolveField sub rest
        | .mk _ _ _ (.prim _) => none

/-- Whether some required pointer resolves to a zero-valued field. -/
def hasZeroRequired (s : GoFields) (vals : List (List Nat)) : Bool :=
  vals.any (fun v =>
    match resolveField s v with
    | some f => FieldVal.isZero (GoField.val f)
    | none => false)

/-- No required pointer under prefix `base` resolves (within `s`) to a
zero-valued field.  This is the property `checkRequired base s vals = none`
captures. -/
def CleanUnder (base : List Nat) (s : GoFields) (vals : List (List Nat)) : Prop :=
  ∀ v ∈ vals, ∀ rest f, v = base ++ rest → resolveField s rest = some f →
    FieldVal.isZero (GoField.val f) = false

/-- Field-level reading of a clean `scanFields` pass over the suffix
`fields` starting at field index `idx`: every nested struct is recursively
clean with respect to all required pointers, and the current pointer `v`
matches no zero-valued field of the suffix. -/
def ScanClean (base : List Nat) (idx : Nat) (fields : GoFields) (v : List Nat)
    (vals : List (List Nat)) : Prop :=
  ∀ k f, nthField fields k = some f →
    (∀ sub, GoField.val f = .strct sub →
      checkRequired (base ++ [idx + k]) sub vals = none) ∧
    (v = base ++ [idx + k] → FieldVal.isZero (GoField.val f) = false)

/-- Where an error returned by `scanFields` can come from: a recursive call
on a nested struct field, or a direct match of `v` with a zero field. -/
def ScanHit (base : List Nat) (idx : Nat) (fields : GoFields) (v : List Nat)
    (vals : List (List Nat)) (er : ReqError) : Prop :=
  ∃ k f, nthField fields k = some f ∧
    ((∃ sub, GoField.val f = .strct sub ∧
        checkRequired (base ++ [idx + k]) sub vals = some er) ∨
      (v = base ++ [idx + k] ∧ FieldVal.isZero (GoField.val f) = true ∧
        er = mkReqError f))

/-! ### Association-list map lemmas -/

theorem lookupMap_insertMap_self {α : Type} (m : List (Nat × α)) (k : Nat) (v : α) :
    lookupMap (insertMap m k v) k = some v := by
  induction m with
  | nil => simp [insertMap, lookupMap]
  | cons p rest ih =>
    by_cases h : p.1 = k
    · simp [insertMap, lookupMap, h]
    · simp [insertMap, lookupMap, h, ih]

theorem lookupMap_insertMap_ne {α : Type} (m : List (Nat × α)) (k k' : Nat) (v : α)
    (h : k' ≠ k) : lookupMap (insertMap m k v) k' = lookupMap m k' := by
  have hkk : ¬k = k' := Ne.symm h
  induction m with
  | nil => simp [insertMap, lookupMap, hkk]
  | cons p rest ih =>
    by_cases hp : p.1 = k
    · subst hp
      simp [insertMap, lookupMap, hkk]
    · by_cases hp' : p.1 = k'
      · simp [insertMap, lookupMap, hp, hp', hkk, h]
      · simp [insertMap, lookupMap, hp, hp', ih]

theorem lookupMap_updateMap_self {α : Type} (m : List (Nat × α)) (k : Nat) (f : α → α) :
    lookupMap (updateMap m k f) k = (lookupMap m k).map f := by
  induction m with
  | nil => simp [updateMap, lookupMap]
  | cons p rest ih =>
    simp only [updateMap]
    by_cases h : p.1 = k
    · rw [if_pos h]
      simp [lookupMap, h]
    · rw [if_neg h]
      simp [lookupMap, h, ih]

theorem lookupMap_updateMap_ne {α : Type} (m : List (Nat × α)) (k k' : Nat) (f : α → α)
    (h : k' ≠ k) : lookupMap (updateMap m k f) k' = lookupMap m k' := by
  induction m with
  | nil => simp [updateMap, lookupMap]
  | cons p rest ih =>
    simp only [updateMap]
    by_cases hp : p.1 = k
    · have hp' : ¬p.1 = k' := fun hq => h (hq ▸ hp ▸ rfl)
      rw [if_pos hp]
      simp [lookupMap, hp', ih, Ne.symm h]
    · rw [if_neg hp]
      by_cases hp' : p.1 = k'
      · simp [lookupMap, hp']
      · simp [lookupMap, hp', ih]

theorem keyCount_insertMap {α : Type} (m : List (Nat × α)) (k k' : Nat) (v : α) :
    keyCount (insertMap m k v) k' =
      if k' = k then max (keyCount m k') 1 else keyCount m k' := by
  induction m with
  | nil =>
    by_cases h : k' = k
    · simp [insertMap, keyCount, h]
    · simp [insertMap, keyCount, h, Ne.symm h]
  | cons p rest ih =>
    by_cases hp : p.1 = k
    · subst hp
      by_cases h : k' = p.1
      · subst h
        simp [insertMap, keyCount]
        try omega
      · simp [insertMap, keyCount, h, Ne.symm h]
    · by_cases h : k' = k
      · subst h
        simp [insertMap, keyCount, hp, ih]
        try omega
      · simp [insertMap, keyCount, hp, ih, h]

theorem keyCount_foldl_insert_le_one {α β : Type} (key : β → Nat) (val : β → α)
    (k : Nat) :
    ∀ (l : List β) (m : List (Nat × α)), keyCount m k ≤ 1 →
      keyCount (l.foldl (fun m s => insertMap m (key s) (val s)) m) k ≤ 1 := by
  intro l
  induction l with
  | nil => intro m hm; simpa using hm
  | cons s rest ih =>
    intro m hm
    simp only [List.foldl_cons]
    apply ih
    rw [keyCount_insertMap]
    split <;> omega

theorem one_le_keyCount_of_lookup {α : Type} (m : List (Nat × α)) (k : Nat)
    (h : (lookupMap m k).isSome) : 1 ≤ keyCount m k := by
  induction m with
  | nil => simp [lookupMap] at h
  | cons p rest ih =>
    by_cases hp : p.1 = k
    · simp [keyCount, hp]
    · simp only [lookupMap, if_neg hp] at h
      simp [keyCount, hp, ih h]

/-! ### wrap32 (two's-complement int32) lemmas -/

theorem wrap32_wrap_add (x y : Int) : wrap32 (wrap32 x + y) = wrap32 (x + y) := by
  unfold wrap32
  omega

theorem wrap32_eq_self {x : Int} (h1 : -2147483648 ≤ x) (h2 : x < 2147483648) :
    wrap32 x = x := by
  unfold wrap32
  omega

theorem wrap32_idem (x : Int) : wrap32 (wrap32 x) = wrap32 x := by
  unfold wrap32
  omega

theorem wrap32_natCast {n : Nat} (h : n < 2147483648) : wrap32 (n : Int) = (n : Int) := by
  apply wrap32_eq_self <;> omega

theorem wrap32_succ {x : Int} (h : (x + 2147483648) % 4294967296 ≠ 4294967295) :
    wrap32 (x + 1) = wrap32 x + 1 := by
  unfold wrap32
  omega

/-! ### Probe characterization lemmas -/

theorem livenessStep_eq (env : Env) (acc : ProbeOut) (l : Indicator) :
    livenessStep env acc l =
      ⟨acc.ok && liveOK acc.state env l.id,
       insertMap acc.res l.id (livenessStatusOf acc.state env l.id),
       acc.state, acc.calls ++ [l.id]⟩ := by
  unfold livenessStep livenessStatusOf liveOK
  cases henv : env l.id with
  | some e => simp [henv]
  | none =>
    cases hcfg : lookupMap acc.state.maxNotReadyConfig l.id with
    | none => simp [henv, hcfg]
    | some t =>
      by_cases hlt : wrap32 t < getCount acc.state l.id
      · simp [henv, hcfg, hlt, not_le.mpr hlt]
      · simp [henv, hcfg, hlt, not_lt.mp hlt]

theorem liveness_foldl (p : Health) (env : Env) :
    ∀ (cs : List Indicator) (acc : ProbeOut), acc.state = p →
      cs.foldl (livenessStep env) acc =
        ⟨acc.ok && cs.all (fun l => liveOK p env l.id),
         cs.foldl (fun r l => insertMap r l.id (livenessStatusOf p env l.id)) acc.res,
         p, acc.calls ++ cs.map (fun l => l.id)⟩ := by
  intro cs
  induction cs with
  | nil =>
    intro acc hacc
    cases acc
    simp_all
  | cons l rest ih =>
    intro acc hacc
    simp only [List.foldl_cons, List.all_cons, List.map_cons]
    rw [livenessStep_eq, hacc]
    rw [ih ⟨acc.ok && liveOK p env l.id,
          insertMap acc.res l.id (livenessStatusOf p env l.id),
          p, acc.calls ++ [l.id]⟩ rfl]
    simp [Bool.and_assoc]

theorem Liveness_eq (p : Health) (env : Env) :
    Liveness p env =
      ⟨p.checkers.all (fun l => liveOK p env l.id),
       p.checkers.foldl
         (fun r l => insertMap r l.id (livenessStatusOf p env l.id)) [],
       p, p.checkers.map (fun l => l.id)⟩ := by
  unfold Liveness
  rw [liveness_foldl p env p.checkers ⟨true, [], p, []⟩ rfl]
  simp

theorem readinessStep_eq (env : Env) (acc : ProbeOut) (r : Indicator) :
    readinessStep env acc r =
      ⟨acc.ok && (env r.id).isNone,
       insertMap acc.res r.id (readinessStatusOf env r.id),
       { acc.state with
           notReadyCount := updateMap acc.state.notReadyCount r.id (countUpd env r.id) },
       acc.calls ++ [r.id]⟩ := by
  unfold readinessStep readinessStatusOf countUpd
  cases henv : env r.id with
  | none => simp [henv]
  | some e => simp [henv]

theorem readiness_foldl (env : Env) :
    ∀ (cs : List Indicator) (acc : ProbeOut),
      cs.foldl (readinessStep env) acc =
        ⟨acc.ok && cs.all (fun r => (env r.id).isNone),
         cs.foldl (fun r l => insertMap r l.id (readinessStatusOf env l.id)) acc.res,
         { acc.state with
             notReadyCount :=
               cs.foldl (fun m r => updateMap m r.id (countUpd env r.id))
                 acc.state.notReadyCount },
         acc.calls ++ cs.map (fun l => l.id)⟩ := by
  intro cs
  induction cs with
  | nil =>
    intro acc
    cases acc
    simp
  | cons r rest ih =>
    intro acc
    simp only [List.foldl_cons, List.all_cons, List.map_cons]
    rw [readinessStep_eq]
    rw [ih ⟨acc.ok && (env r.id).isNone,
          insertMap acc.res r.id (readinessStatusOf env r.id),
          { acc.state with
              notReadyCount := updateMap acc.state.notReadyCount r.id (countUpd env r.id) },
          acc.calls ++ [r.id]⟩]
    simp [Bool.and_assoc]

theorem Readiness_eq (p : Health) (env : Env) :
    Readiness p env =
      ⟨p.checkers.all (fun r => (env r.id).isNone),
       p.checkers.foldl
         (fun r l => insertMap r l.id (readinessStatusOf env l.id)) [],
       { p with
           notReadyCount :=
             p.checkers.foldl (fun m r => updateMap m r.id (countUpd env r.id))
               p.notReadyCount },
       p.checkers.map (fun l => l.id)⟩ := by
  unfold Readiness
  rw [readiness_foldl env p.checkers ⟨true, [], p, []⟩]
  simp

theorem countAfter_countUpd (env : Env) (k : Nat) (m : Nat) (c : Int) :
    countAfter env k m (countUpd env k c) = countAfter env k (m + 1) c := by
  unfold countAfter countUpd
  cases henv : env k with
  | none =>
    by_cases hm : m = 0 <;> simp [hm]
  | some e =>
    by_cases hm : m = 0
    · simp [hm]
    · simp only [if_neg hm, Nat.add_one_ne_zero, if_neg (Nat.add_one_ne_zero m)]
      rw [wrap32_wrap_add]
      push_cast
      ring_nf

theorem lookup_countsFold (env : Env) (k : Nat) :
    ∀ (cs : List Indicator) (m : List (Nat × Int)),
      lookupMap (cs.foldl (fun m r => updateMap m r.id (countUpd env r.id)) m) k =
        (lookupMap m k).map
          (fun c => countAfter env k ((cs.map (fun l => l.id)).count k) c) := by
  intro cs
  induction cs with
  | nil =>
    intro m
    cases ho : lookupMap m k <;> simp [ho, countAfter]
  | cons r rest ih =>
    intro m
    simp only [List.foldl_cons]
    rw [ih]
    by_cases hr : r.id = k
    · subst hr
      rw [lookupMap_updateMap_self]
      cases ho : lookupMap m r.id with
      | none => simp
      | some c =>
        simp only [Option.map_some, List.map_cons, List.count_cons]
        simp [countAfter_countUpd]
    · rw [lookupMap_updateMap_ne _ _ _ _ (Ne.symm hr)]
      cases ho : lookupMap m k <;> simp [ho, List.count_cons, hr]

/-- Detail-map entries written by a probe: one entry per distinct invoked
identity, whose value depends only on the identity. -/
theorem lookup_resFold {α : Type} (f : Nat → α) (k : Nat) :
    ∀ (cs : List Indicator) (r0 : List (Nat × α)),
      lookupMap (cs.foldl (fun r l => insertMap r l.id (f l.id)) r0) k =
        if k ∈ cs.map (fun l => l.id) then some (f k) else lookupMap r0 k := by
  intro cs
  induction cs with
  | nil => intro r0; simp
  | cons l rest ih =>
    intro r0
    simp only [List.foldl_cons]
    rw [ih]
    by_cases hmem : k ∈ rest.map (fun l => l.id)
    · simp [hmem, List.map_cons, List.mem_cons, Or.inr hmem]
    · by_cases hl : l.id = k
      · subst hl
        simp [hmem, lookupMap_insertMap_self]
      · simp [hmem, List.map_cons, List.mem_cons, hl, Ne.symm hl,
          lookupMap_insertMap_ne _ _ _ _ (Ne.symm hl)]

/-! ### NewHealth lemmas -/

theorem lookup_foldl_insert_not_mem {α : Type} (val : Indicator → α) (k : Nat) :
    ∀ (l : List Indicator) (m : List (Nat × α)), (∀ x ∈ l, x.id ≠ k) →
      lookupMap (l.foldl (fun m s => insertMap m s.id (val s)) m) k = lookupMap m k := by
  intro l
  induction l with
  | nil => intro m _; rfl
  | cons s rest ih =>
    intro m h
    simp only [List.foldl_cons]
    rw [ih _ (fun x hx => h x (List.mem_cons_of_mem s hx))]
    exact lookupMap_insertMap_ne _ _ _ _ (Ne.symm (h s (List.mem_cons_self s rest)))

theorem lookup_foldl_insert_mem {α : Type} (val : Indicator → α) (x : Indicator) :
    ∀ (l : List Indicator) (m : List (Nat × α)),
      x ∈ l → (∀ a ∈ l, a.id = x.id → a = x) →
      lookupMap (l.foldl (fun m s => insertMap m s.id (val s)) m) x.id = some (val x) := by
  intro l
  induction l with
  | nil => intro m hx; exact absurd hx (List.not_mem_nil x)
  | cons s rest ih =>
    intro m hx huniq
    simp only [List.foldl_cons]
    by_cases hrest : ∃ y ∈ rest, y.id = x.id
    · obtain ⟨y, hy, hyk⟩ := hrest
      have hyx : y = x := huniq y (List.mem_cons_of_mem s hy) hyk
      subst hyx
      exact ih _ hy (fun a ha hak => huniq a (List.mem_cons_of_mem s ha) hak)
    · have hxs : x = s := by
        rcases List.mem_cons.mp hx with h | h
        · exact h
        · exact absurd ⟨x, h, rfl⟩ hrest
      subst hxs
      rw [lookup_foldl_insert_not_mem]
      · exact lookupMap_insertMap_self m x.id (val x)
      · intro y hy hyk
        exact hrest ⟨y, hy, hyk⟩

theorem NewHealth_checkers (cs : List Indicator) : (NewHealth cs).checkers = cs := rfl

theorem NewHealth_config_lookup (cs : List Indicator) (x : Indicator)
    (hwf : WFList cs) (hx : x ∈ cs) (ht : isThresholded x = true) :
    lookupMap (NewHealth cs).maxNotReadyConfig x.id = some (thresholdVal x) := by
  unfold NewHealth
  apply lookup_foldl_insert_mem
  · exact List.mem_filter.mpr ⟨hx, ht⟩
  · intro a ha hak
    exact hwf a (List.mem_of_mem_filter ha) x hx hak

theorem NewHealth_counts_lookup (cs : List Indicator) (x : Indicator)
    (hwf : WFList cs) (hx : x ∈ cs) (ht : isThresholded x = true) :
    lookupMap (NewHealth cs).notReadyCount x.id = some 0 := by
  unfold NewHealth
  apply lookup_foldl_insert_mem (fun _ => (0 : Int))
  · exact List.mem_filter.mpr ⟨hx, ht⟩
  · intro a ha hak
    exact hwf a (List.mem_of_mem_filter ha) x hx hak

theorem NewHealth_config_lookup_none (cs : List Indicator) (k : Nat)
    (h : ∀ x ∈ cs, x.id = k → isThresholded x = false) :
    lookupMap (NewHealth cs).maxNotReadyConfig k = none := by
  unfold NewHealth
  rw [lookup_foldl_insert_not_mem]
  · rfl
  · intro x hx hxk
    have hx' := List.mem_filter.mp hx
    rw [h x hx'.1 hxk] at hx'
    exact absurd hx'.2 (by simp)

theorem NewHealth_counts_lookup_none (cs : List Indicator) (k : Nat)
    (h : ∀ x ∈ cs, x.id = k → isThresholded x = false) :
    lookupMap (NewHealth cs).notReadyCount k = none := by
  unfold NewHealth
  rw [lookup_foldl_insert_not_mem]
  · rfl
  · intro x hx hxk
    have hx' := List.mem_filter.mp hx
    rw [h x hx'.1 hxk] at hx'
    exact absurd hx'.2 (by simp)

/-! ### Probe invariants and lookups -/

theorem Liveness_state (p : Health) (env : Env) : (Liveness p env).state = p := by
  rw [Liveness_eq]

theorem livenessRun_state (envs : List Env) : ∀ p : Health, livenessRun p envs = p := by
  induction envs with
  | nil => intro p; rfl
  | cons e rest ih =>
    intro p
    simp only [livenessRun, List.foldl_cons]
    rw [Liveness_state]
    exact ih p

theorem Liveness_calls (p : Health) (env : Env) :
    (Liveness p env).calls = p.checkers.map (fun l => l.id) := by
  rw [Liveness_eq]

theorem Readiness_calls (p : Health) (env : Env) :
    (Readiness p env).calls = p.checkers.map (fun l => l.id) := by
  rw [Readiness_eq]

theorem Readiness_state_checkers (p : Health) (env : Env) :
    (Readiness p env).state.checkers = p.checkers := by
  rw [Readiness_eq]

theorem Readiness_state_config (p : Health) (env : Env) :
    (Readiness p env).state.maxNotReadyConfig = p.maxNotReadyConfig := by
  rw [Readiness_eq]

theorem Readiness_counts_lookup (p : Health) (env : Env) (k : Nat) :
    lookupMap (Readiness p env).state.notReadyCount k =
      (lookupMap p.notReadyCount k).map
        (fun c => countAfter env k ((p.checkers.map (fun l => l.id)).count k) c) := by
  rw [Readiness_eq]
  exact lookup_countsFold env k p.checkers p.notReadyCount

theorem readinessRun_checkers (envs : List Env) :
    ∀ p : Health, (readinessRun p envs).checkers = p.checkers := by
  induction envs with
  | nil => intro p; rfl
  | cons e rest ih =>
    intro p
    simp only [readinessRun, List.foldl_cons]
    have := ih (Readiness p e).state
    simp only [readinessRun] at this
    rw [this, Readiness_state_checkers]

theorem readinessRun_config (envs : List Env) :
    ∀ p : Health, (readinessRun p envs).maxNotReadyConfig = p.maxNotReadyConfig := by
  induction envs with
  | nil => intro p; rfl
  | cons e rest ih =>
    intro p
    simp only [readinessRun, List.foldl_cons]
    have := ih (Readiness p e).state
    simp only [readinessRun] at this
    rw [this, Readiness_state_config]

theorem Liveness_res_lookup (p : Health) (env : Env) (k : Nat)
    (hk : k ∈ p.checkers.map (fun l => l.id)) :
    lookupMap (Liveness p env).res k = some (livenessStatusOf p env k) := by
  rw [Liveness_eq]
  simp only
  rw [lookup_resFold]
  simp [hk]

theorem Readiness_res_lookup (p : Health) (env : Env) (k : Nat)
    (hk : k ∈ p.checkers.map (fun l => l.id)) :
    lookupMap (Readiness p env).res k = some (readinessStatusOf env k) := by
  rw [Readiness_eq]
  simp only
  rw [lookup_resFold]
  simp [hk]

theorem Liveness_ok_false_iff (p : Health) (env : Env) :
    (Liveness p env).ok = false ↔ ∃ l ∈ p.checkers, liveOK p env l.id = false := by
  rw [Liveness_eq]
  simp [List.all_eq_true]

theorem Readiness_ok_false_iff (p : Health) (env : Env) :
    (Readiness p env).ok = false ↔ ∃ r ∈ p.checkers, (env r.id).isSome := by
  rw [Readiness_eq]
  simp [List.all_eq_true, Option.isSome_iff_ne_none, Option.isNone_iff_eq_none]

/-! ### Single-indicator scenario lemmas -/

theorem NewHealth_one (t : Int) (ht : 0 ≤ t) :
    NewHealth [⟨0, some t⟩] = oneState t 0 := by
  simp [NewHealth, oneState, isThresholded, thresholdVal, ht, insertMap,
    List.filter]

theorem readiness_fail_oneState (t c : Int) :
    (Readiness (oneState t c) envFail).state = oneState t (wrap32 (c + 1)) := by
  rw [Readiness_eq]
  simp [oneState, countUpd, envFail, updateMap]

theorem readiness_ok_oneState (t c : Int) :
    (Readiness (oneState t c) envOK).state = oneState t 0 := by
  rw [Readiness_eq]
  simp [oneState, countUpd, envOK, updateMap]

theorem failRun_oneState (t : Int) :
    ∀ (n : Nat) (c : Int), wrap32 c = c →
      readinessRun (oneState t c) (List.replicate n envFail) =
        oneState t (wrap32 (c + n)) := by
  intro n
  induction n with
  | zero =>
    intro c hc
    simp only [List.replicate_zero, readinessRun, List.foldl_nil, Nat.cast_zero,
      add_zero, hc]
  | succ n ih =>
    intro c hc
    rw [List.replicate_succ]
    simp only [readinessRun, List.foldl_cons]
    rw [readiness_fail_oneState]
    have h2 := ih (wrap32 (c + 1)) (wrap32_idem (c + 1))
    simp only [readinessRun] at h2
    rw [h2, wrap32_wrap_add]
    congr 1
    push_cast
    ring_nf

theorem liveness_oneState_up (t c : Int) (h : c ≤ wrap32 t) :
    Liveness (oneState t c) envOK =
      ⟨true, [(0, ⟨HealthStatusUp, none⟩)], oneState t c, [0]⟩ := by
  rw [Liveness_eq]
  simp [oneState, liveOK, livenessStatusOf, envOK, lookupMap, getCount,
    insertMap, h, not_lt.mpr h]

theorem liveness_oneState_down (t c : Int) (h : wrap32 t < c) :
    Liveness (oneState t c) envOK =
      ⟨false, [(0, ⟨HealthStatusDown, some ErrUnavailable⟩)], oneState t c, [0]⟩ := by
  rw [Liveness_eq]
  simp [oneState, liveOK, livenessStatusOf, envOK, lookupMap, getCount,
    insertMap, h, not_le.mpr h]

theorem liveOK_false_iff (p : Health) (env : Env) (k : Nat) :
    liveOK p env k = false ↔
      (env k).isSome ∨
        ∃ t, lookupMap p.maxNotReadyConfig k = some t ∧ wrap32 t < getCount p k := by
  unfold liveOK
  cases henv : env k with
  | some e => simp
  | none =>
    cases hcfg : lookupMap p.maxNotReadyConfig k with
    | none => simp
    | some t => simp [not_le]

/-! ### Claims -/

/-- Claim C1, counterexample to the claim as stated: one indicator with
threshold `0`, one Readiness failure (counter `1 > 0`), own Liveness check
fine; the next Liveness probe reports the indicator with status `"DOWN"`
and cause `ErrUnavailable` — not with status `"UNAVAILABLE"` as the claim
says (`HealthStatusDown ≠ HealthUnavailable`). -/
theorem C1_counterexample :
    lookupMap (Liveness ((Readiness (NewHealth [⟨0, some 0⟩]) envFail).state)
        envOK).res 0 = some ⟨HealthStatusDown, some ErrUnavailable⟩ ∧
      HealthStatusDown ≠ HealthUnavailable := by
  constructor
  · decide
  · decide

/-- Claim C1 (amended): for every indicator with a threshold entry whose own
Liveness check returns no error, if its failure counter exceeds its
(int32-converted) threshold, the Liveness probe reports that indicator with
status DOWN — the same status string as for an explicit probe error — and
with the fixed sentinel cause `ErrUnavailable`, not the indicator's own
error; overall liveness is false. -/
theorem C1_threshold_exceeded_status (p : Health) (env : Env) (x : Indicator)
    (t : Int) (hx : x ∈ p.checkers)
    (hcfg : lookupMap p.maxNotReadyConfig x.id = some t)
    (henv : env x.id = none)
    (hcnt : wrap32 t < getCount p x.id) :
    lookupMap (Liveness p env).res x.id =
        some ⟨HealthStatusDown, some ErrUnavailable⟩ ∧
      (Liveness p env).ok = false := by
  constructor
  · rw [Liveness_res_lookup p env x.id (List.mem_map_of_mem _ hx)]
    unfold livenessStatusOf
    rw [henv, hcfg]
    simp [hcnt]
  · rw [Liveness_ok_false_iff]
    refine ⟨x, hx, ?_⟩
    rw [liveOK_false_iff]
    exact Or.inr ⟨t, hcfg, hcnt⟩

theorem C1_witness :
    lookupMap (Liveness (oneState 0 1) envOK).res 0 =
        some ⟨HealthStatusDown, some ErrUnavailable⟩ ∧
      (Liveness (oneState 0 1) envOK).ok = false :=
  C1_threshold_exceeded_status (oneState 0 1) envOK ⟨0, some 0⟩ 0
    (by decide) (by decide) rfl (by decide)

/-- Claim C2, counterexample to the claim as stated at threshold
`T = 2147483647` (`math.MaxInt32`, a value of type `int` with
`T ≥ 0`): after exactly `T+1 = 2^31` consecutive Readiness failures the
failure counter — an `atomic.Int32` — has wrapped to `-2147483648`, which is
not greater than `int32(T)`, so the next Liveness probe still reports the
indicator UP and overall liveness true, while the claim requires an
escalated (non-UP) report with overall liveness false. -/
theorem C2_counterexample :
    lookupMap (Liveness (readinessRun (NewHealth [⟨0, some 2147483647⟩])
        (List.replicate 2147483648 envFail)) envOK).res 0 =
      some ⟨HealthStatusUp, none⟩ ∧
    (Liveness (readinessRun (NewHealth [⟨0, some 2147483647⟩])
        (List.replicate 2147483648 envFail)) envOK).ok = true := by
  rw [NewHealth_one 2147483647 (by norm_num)]
  rw [failRun_oneState 2147483647 2147483648 0 (by unfold wrap32; omega)]
  rw [show wrap32 (0 + ((2147483648 : Nat) : Int)) = -2147483648 by
    unfold wrap32; norm_num]
  rw [liveness_oneState_up 2147483647 (-2147483648) (by
    rw [show wrap32 2147483647 = 2147483647 by unfold wrap32; norm_num]
    norm_num)]
  constructor
  · rfl
  · rfl

/-- Claim C2 (amended): for every declared threshold `T ≥ 0` whose int32
image is not `2^31 - 1` — i.e. `T % 2^32 ≠ 2147483647`, the only case the
counterexample forces out, covering in particular every realistic
`T < 2147483647` and also `T = 0` — after exactly `T+1` consecutive
Readiness failures the next Liveness probe reports the indicator escalated
(status DOWN with the `ErrUnavailable` sentinel, not UP) and overall
liveness false, while after only `T` consecutive failures it still reports
UP with overall liveness true, assuming the indicator's own Liveness check
succeeds. -/
theorem C2_threshold_escalation (T : Nat) (hT : T % 4294967296 ≠ 2147483647) :
    (lookupMap (Liveness (readinessRun (NewHealth [⟨0, some (T : Int)⟩])
          (List.replicate (T + 1) envFail)) envOK).res 0 =
        some ⟨HealthStatusDown, some ErrUnavailable⟩ ∧
      (Liveness (readinessRun (NewHealth [⟨0, some (T : Int)⟩])
          (List.replicate (T + 1) envFail)) envOK).ok = false) ∧
    (lookupMap (Liveness (readinessRun (NewHealth [⟨0, some (T : Int)⟩])
          (List.replicate T envFail)) envOK).res 0 =
        some ⟨HealthStatusUp, none⟩ ∧
      (Liveness (readinessRun (NewHealth [⟨0, some (T : Int)⟩])
          (List.replicate T envFail)) envOK).ok = true) := by
  have hsucc : wrap32 ((T : Int) + 1) = wrap32 (T : Int) + 1 := by
    apply wrap32_succ
    omega
  rw [NewHealth_one (T : Int) (Int.ofNat_nonneg T)]
  rw [failRun_oneState (T : Int) (T + 1) 0 (by unfold wrap32; omega)]
  rw [failRun_oneState (T : Int) T 0 (by unfold wrap32; omega)]
  have hTpush : (0 : Int) + ((T + 1 : Nat) : Int) = (T : Int) + 1 := by push_cast; ring_nf
  rw [hTpush]
  rw [show (0 : Int) + ((T : Nat) : Int) = (T : Int) by ring_nf]
  constructor
  · rw [liveness_oneState_down (T : Int) (wrap32 ((T : Int) + 1)) (by
      rw [hsucc]
      have := wrap32_idem (T : Int)
      omega)]
    constructor
    · rfl
    · rfl
  · rw [liveness_oneState_up (T : Int) (wrap32 (T : Int)) (le_refl _)]
    constructor
    · rfl
    · rfl

theorem C2_witness :
    (0 % 4294967296 ≠ 2147483647) ∧
    ((lookupMap (Liveness (readinessRun (NewHealth [⟨0, some ((0 : Nat) : Int)⟩])
          (List.replicate (0 + 1) envFail)) envOK).res 0 =
        some ⟨HealthStatusDown, some ErrUnavailable⟩ ∧
      (Liveness (readinessRun (NewHealth [⟨0, some ((0 : Nat) : Int)⟩])
          (List.replicate (0 + 1) envFail)) envOK).ok = false) ∧
    (lookupMap (Liveness (readinessRun (NewHealth [⟨0, some ((0 : Nat) : Int)⟩])
          (List.replicate 0 envFail)) envOK).res 0 =
        some ⟨HealthStatusUp, none⟩ ∧
      (Liveness (readinessRun (NewHealth [⟨0, some ((0 : Nat) : Int)⟩])
          (List.replicate 0 envFail)) envOK).ok = true)) :=
  ⟨by decide, C2_threshold_escalation 0 (by decide)⟩

/-- Claim C3: aggregate Readiness returns false iff at least one
indicator's Readiness call returned an error, and aggregate Liveness
returns false iff at least one indicator either had its Liveness call
error (reported DOWN) or is threshold-exceeded (counter above its
int32-converted threshold); otherwise the aggregates are true. -/
theorem C3_aggregate_false_iff (p : Health) (envR envL : Env) :
    ((Readiness p envR).ok = false ↔
      ∃ r ∈ p.checkers, (envR r.id).isSome) ∧
    ((Liveness p envL).ok = false ↔
      ∃ l ∈ p.checkers, (envL l.id).isSome ∨
        ∃ t, lookupMap p.maxNotReadyConfig l.id = some t ∧
          wrap32 t < getCount p l.id) := by
  constructor
  · exact Readiness_ok_false_iff p envR
  · rw [Liveness_ok_false_iff]
    constructor
    · rintro ⟨l, hl, hfalse⟩
      exact ⟨l, hl, (liveOK_false_iff p envL l.id).mp hfalse⟩
    · rintro ⟨l, hl, hcond⟩
      exact ⟨l, hl, (liveOK_false_iff p envL l.id).mpr hcond⟩

/-- Claim C4: a single successful Readiness call stores `0` in the
indicator's failure counter whatever its prior value, and the counter is
not cumulative across success boundaries: a run starting with one success
followed by `n` failures reaches exactly the state reached by `n` failures
from a fresh (zero) counter. -/
theorem C4_success_resets_counter (p : Health) (env : Env) (x : Indicator)
    (c : Int) (hx : x ∈ p.checkers) (henv : env x.id = none)
    (hc : lookupMap p.notReadyCount x.id = some c) :
    lookupMap (Readiness p env).state.notReadyCount x.id = some 0 ∧
    ∀ (t c' : Int) (n : Nat),
      readinessRun (oneState t c') (envOK :: List.replicate n envFail) =
        readinessRun (oneState t 0) (List.replicate n envFail) := by
  constructor
  · rw [Readiness_counts_lookup, hc]
    have hm : 0 < (p.checkers.map (fun l => l.id)).count x.id :=
      List.count_pos_iff.mpr (List.mem_map_of_mem _ hx)
    simp [countAfter, henv, hm.ne']
  · intro t c' n
    simp only [readinessRun, List.foldl_cons]
    rw [readiness_ok_oneState]

theorem C4_witness :
    lookupMap (Readiness (oneState 7 3) envOK).state.notReadyCount 0 = some 0 ∧
    readinessRun (oneState 7 9) (envOK :: List.replicate 2 envFail) =
      readinessRun (oneState 7 0) (List.replicate 2 envFail) :=
  ⟨(C4_success_resets_counter (oneState 7 3) envOK ⟨0, some 7⟩ 3
      (by decide) rfl (by decide)).1,
   (C4_success_resets_counter (oneState 7 3) envOK ⟨0, some 7⟩ 3
      (by decide) rfl (by decide)).2 7 9 2⟩

/-- Claim C5: an indicator that declares no threshold (does not implement
`ReadinessThresholder`) or declares a negative one is never reported other
than UP by a Liveness probe — after any sequence of Readiness probes
whatsoever — as long as its own Liveness check succeeds, and it is never
the cause of overall liveness turning false: if the aggregate is false,
some other indicator (different identity) is unhealthy. -/
theorem C5_unthresholded_never_escalates (cs : List Indicator) (x : Indicator)
    (envs : List Env) (envL : Env) (hwf : WFList cs) (hx : x ∈ cs)
    (ht : x.readinessThreshold? = none ∨
      ∃ t, x.readinessThreshold? = some t ∧ t < 0)
    (henv : envL x.id = none) :
    lookupMap (Liveness (readinessRun (NewHealth cs) envs) envL).res x.id =
      some ⟨HealthStatusUp, none⟩ ∧
    ((Liveness (readinessRun (NewHealth cs) envs) envL).ok = false →
      ∃ y ∈ cs, y.id ≠ x.id ∧
        liveOK (readinessRun (NewHealth cs) envs) envL y.id = false) := by
  have hthr : isThresholded x = false := by
    unfold isThresholded
    rcases ht with h | ⟨t, h, hneg⟩
    · rw [h]
    · rw [h]
      simp [not_le.mpr hneg]
  have hcheckers : (readinessRun (NewHealth cs) envs).checkers = cs := by
    rw [readinessRun_checkers, NewHealth_checkers]
  have hcfg : lookupMap (readinessRun (NewHealth cs) envs).maxNotReadyConfig
      x.id = none := by
    rw [readinessRun_config]
    apply NewHealth_config_lookup_none
    intro y hy hyk
    rw [hwf y hy x hx hyk]
    exact hthr
  constructor
  · rw [Liveness_res_lookup _ envL x.id
      (by rw [hcheckers]; exact List.mem_map_of_mem _ hx)]
    unfold livenessStatusOf
    rw [henv, hcfg]
  · intro hfalse
    rw [Liveness_ok_false_iff] at hfalse
    obtain ⟨y, hy, hyfalse⟩ := hfalse
    rw [hcheckers] at hy
    refine ⟨y, hy, ?_, hyfalse⟩
    intro hid
    rw [liveOK_false_iff] at hyfalse
    rcases hyfalse with h | ⟨t, hsome, _⟩
    · rw [hid, henv] at h
      cases h
    · rw [hid, hcfg] at hsome
      cases hsome

theorem C5_witness :
    lookupMap (Liveness (readinessRun (NewHealth [⟨0, none⟩, ⟨1, some (-2)⟩])
        (List.replicate 5 envFail)) envOK).res 0 =
      some ⟨HealthStatusUp, none⟩ ∧
    ((Liveness (readinessRun (NewHealth [⟨0, none⟩, ⟨1, some (-2)⟩])
        (List.replicate 5 envFail)) envOK).ok = false →
      ∃ y ∈ [(⟨0, none⟩ : Indicator), ⟨1, some (-2)⟩], y.id ≠ 0 ∧
        liveOK (readinessRun (NewHealth [⟨0, none⟩, ⟨1, some (-2)⟩])
          (List.replicate 5 envFail)) envOK y.id = false) :=
  C5_unthresholded_never_escalates [⟨0, none⟩, ⟨1, some (-2)⟩] ⟨0, none⟩
    (List.replicate 5 envFail) envOK (by decide) (by decide)
    (Or.inl rfl) rfl

/-- Claim C6: a Liveness probe never mutates any failure counter — its
resulting state is exactly the input state — and hence any sequence of
Liveness probes interleaved between two Readiness probes leaves the state
(in particular every counter value) unchanged. -/
theorem C6_liveness_reads_only (p : Health) (env : Env) (envs : List Env) :
    (Liveness p env).state = p ∧ livenessRun p envs = p :=
  ⟨Liveness_state p env, livenessRun_state envs p⟩

/-- Claim C7: under every per-indicator error combination, both probes
invoke the check of every registered indicator in registration order (no
short-circuit on error), and the returned detail map has a status entry
for every registered indicator. -/
theorem C7_probe_isolation (p : Health) (envL envR : Env) :
    (Liveness p envL).calls = p.checkers.map (fun l => l.id) ∧
    (Readiness p envR).calls = p.checkers.map (fun l => l.id) ∧
    p.checkers.all
      (fun x => (lookupMap (Liveness p envL).res x.id).isSome) = true ∧
    p.checkers.all
      (fun x => (lookupMap (Readiness p envR).res x.id).isSome) = true := by
  refine ⟨Liveness_calls p envL, Readiness_calls p envR, ?_, ?_⟩
  · rw [List.all_eq_true]
    intro x hx
    rw [Liveness_res_lookup p envL x.id (List.mem_map_of_mem _ hx)]
    rfl
  · rw [List.all_eq_true]
    intro x hx
    rw [Readiness_res_lookup p envR x.id (List.mem_map_of_mem _ hx)]
    rfl

/-- Claim C8, counterexample to the claim as stated: the failure counter is
an `atomic.Int32`, whose `Add(1)` wraps around; after `2^31` consecutive
Readiness failures (each one "adding exactly 1") the counter holds
`-2147483648 < 0`, so it does not stay non-negative at all times. -/
theorem C8_counterexample :
    lookupMap (readinessRun (NewHealth [⟨0, some 5⟩])
        (List.replicate 2147483648 envFail)).notReadyCount 0 =
      some (-2147483648) ∧ (-2147483648 : Int) < 0 := by
  rw [NewHealth_one 5 (by norm_num)]
  rw [failRun_oneState 5 2147483648 0 (by unfold wrap32; omega)]
  constructor
  · rw [show wrap32 (0 + ((2147483648 : Nat) : Int)) = -2147483648 by
      unfold wrap32; norm_num]
    rfl
  · norm_num

/-- Claim C8 (amended): the failure counter starts at `0` at construction
and stays non-negative — in fact equal to the streak length — along every
consecutive-failure streak shorter than `2^31` (the bound the int32 wrap of
the counterexample forces); Liveness probes never change it and a Readiness
success stores `0`. -/
theorem C8_counter_nonneg (T n : Nat) (hn : n < 2147483648) :
    lookupMap (NewHealth [⟨0, some (T : Int)⟩]).notReadyCount 0 = some 0 ∧
    lookupMap (readinessRun (NewHealth [⟨0, some (T : Int)⟩])
        (List.replicate n envFail)).notReadyCount 0 = some (n : Int) ∧
    (0 : Int) ≤ (n : Int) := by
  rw [NewHealth_one (T : Int) (Int.ofNat_nonneg T)]
  rw [failRun_oneState (T : Int) n 0 (by unfold wrap32; omega)]
  refine ⟨rfl, ?_, Int.ofNat_nonneg n⟩
  rw [show (0 : Int) + ((n : Nat) : Int) = (n : Int) by ring_nf]
  rw [wrap32_natCast hn]
  rfl

theorem C8_witness :
    (3 < 2147483648) ∧
    (lookupMap (NewHealth [⟨0, some ((5 : Nat) : Int)⟩]).notReadyCount 0 = some 0 ∧
     lookupMap (readinessRun (NewHealth [⟨0, some ((5 : Nat) : Int)⟩])
        (List.replicate 3 envFail)).notReadyCount 0 = some ((3 : Nat) : Int) ∧
     (0 : Int) ≤ ((3 : Nat) : Int)) :=
  ⟨by decide, C8_counter_nonneg 5 3 (by decide)⟩

/-- Claim C10: if the same indicator instance occurs several times in the
registered list, each probe's call trace contains its identity once per
occurrence (the check runs once per occurrence), the detail map carries
exactly one entry for it (every occurrence writes the same status, so the
surviving last write equals it), the threshold and counter maps carry
exactly one entry for it, and one failing Readiness probe increments its
single counter once per occurrence (from 0 to the occurrence count). -/
theorem C10_duplicate_indicator (cs : List Indicator) (x : Indicator)
    (env : Env) (e : Err) (hwf : WFList cs) (hx : x ∈ cs)
    (ht : isThresholded x = true) (henv : env x.id = some e) :
    (Readiness (NewHealth cs) env).calls = cs.map (fun l => l.id) ∧
    keyCount (Readiness (NewHealth cs) env).res x.id = 1 ∧
    keyCount (NewHealth cs).maxNotReadyConfig x.id = 1 ∧
    keyCount (NewHealth cs).notReadyCount x.id = 1 ∧
    lookupMap (Readiness (NewHealth cs) env).res x.id =
      some ⟨HealthUnavailable, some e⟩ ∧
    lookupMap (Readiness (NewHealth cs) env).state.notReadyCount x.id =
      some (wrap32 ((cs.map (fun l => l.id)).count x.id)) := by
  have hmem : x.id ∈ (NewHealth cs).checkers.map (fun l => l.id) := by
    rw [NewHealth_checkers]
    exact List.mem_map_of_mem _ hx
  have hressome : (lookupMap (Readiness (NewHealth cs) env).res x.id).isSome := by
    rw [Readiness_res_lookup _ env x.id hmem]
    rfl
  refine ⟨?_, ?_, ?_, ?_, ?_, ?_⟩
  · rw [Readiness_calls, NewHealth_checkers]
  · have hle : keyCount (Readiness (NewHealth cs) env).res x.id ≤ 1 := by
      rw [Readiness_eq]
      exact keyCount_foldl_insert_le_one (fun l => l.id)
        (fun l => readinessStatusOf env l.id) x.id (NewHealth cs).checkers []
        (by simp [keyCount])
    have hge := one_le_keyCount_of_lookup _ _ hressome
    omega
  · have hle : keyCount (NewHealth cs).maxNotReadyConfig x.id ≤ 1 := by
      unfold NewHealth
      exact keyCount_foldl_insert_le_one (fun l => l.id) thresholdVal x.id
        (cs.filter isThresholded) [] (by simp [keyCount])
    have hge := one_le_keyCount_of_lookup _ _
      (by rw [NewHealth_config_lookup cs x hwf hx ht]; rfl)
    omega
  · have hle : keyCount (NewHealth cs).notReadyCount x.id ≤ 1 := by
      unfold NewHealth
      exact keyCount_foldl_insert_le_one (fun l => l.id) (fun _ => (0 : Int)) x.id
        (cs.filter isThresholded) [] (by simp [keyCount])
    have hge := one_le_keyCount_of_lookup _ _
      (by rw [NewHealth_counts_lookup cs x hwf hx ht]; rfl)
    omega
  · rw [Readiness_res_lookup _ env x.id hmem]
    unfold readinessStatusOf
    rw [henv]
  · rw [Readiness_counts_lookup, NewHealth_counts_lookup cs x hwf hx ht]
    have hm : 0 < (cs.map (fun l => l.id)).count x.id :=
      List.count_pos_iff.mpr (List.mem_map_of_mem _ hx)
    simp [countAfter, henv, hm.ne', NewHealth_checkers]

theorem C10_witness :
    (Readiness (NewHealth [⟨0, some 2⟩, ⟨1, none⟩, ⟨0, some 2⟩])
        (fun k => if k = 0 then some (.msg "down") else none)).calls =
      ([⟨0, some 2⟩, ⟨1, none⟩, ⟨0, some 2⟩] :
        List Indicator).map (fun l => l.id) ∧
    keyCount (Readiness (NewHealth [⟨0, some 2⟩, ⟨1, none⟩, ⟨0, some 2⟩])
        (fun k => if k = 0 then some (.msg "down") else none)).res 0 = 1 ∧
    keyCount (NewHealth [⟨0, some 2⟩, ⟨1, none⟩,
        ⟨0, some 2⟩]).maxNotReadyConfig 0 = 1 ∧
    keyCount (NewHealth [⟨0, some 2⟩, ⟨1, none⟩,
        ⟨0, some 2⟩]).notReadyCount 0 = 1 ∧
    lookupMap (Readiness (NewHealth [⟨0, some 2⟩, ⟨1, none⟩, ⟨0, some 2⟩])
        (fun k => if k = 0 then some (.msg "down") else none)).res 0 =
      some ⟨HealthUnavailable, some (.msg "down")⟩ ∧
    lookupMap (Readiness (NewHealth [⟨0, some 2⟩, ⟨1, none⟩, ⟨0, some 2⟩])
        (fun k => if k = 0 then some (.msg "down") else none)).state.notReadyCount
        0 =
      some (wrap32 ((([⟨0, some 2⟩, ⟨1, none⟩, ⟨0, some 2⟩] :
        List Indicator).map (fun l => l.id)).count 0)) :=
  C10_duplicate_indicator [⟨0, some 2⟩, ⟨1, none⟩, ⟨0, some 2⟩] ⟨0, some 2⟩
    (fun k => if k = 0 then some (.msg "down") else none) (.msg "down")
    (by decide) (by decide) (by decide) rfl

/-! ### checkRequired lemmas -/

theorem GoFields.induct (motive : GoFields → Prop) (hnil : motive .nil)
    (hcons : ∀ f fs, motive fs → motive (.cons f fs)) : ∀ s, motive s
  | .nil => hnil
  | .cons f fs => hcons f fs (GoFields.induct motive hnil hcons fs)

theorem nthField_sizeOf : ∀ (s : GoFields) (k : Nat) (f : GoField),
    nthField s k = some f → sizeOf f < sizeOf s
  | .nil, k, f, h => by simp [nthField] at h
  | .cons f' fs, 0, f, h => by
    simp only [nthField, Option.some.injEq] at h
    subst h
    simp
    omega
  | .cons f' fs, n + 1, f, h => by
    have := nthField_sizeOf fs n f (by simpa [nthField] using h)
    simp
    omega

theorem val_strct_sizeOf (f : GoField) (sub : GoFields)
    (h : GoField.val f = .strct sub) : sizeOf sub < sizeOf f := by
  cases f with
  | mk n j m v =>
    simp only [GoField.val] at h
    subst h
    simp
    omega

theorem resolveField_nil_path (s : GoFields) : resolveField s [] = none := by
  simp [resolveField]

theorem resolveField_single (s : GoFields) (k : Nat) :
    resolveField s [k] = nthField s k := by
  cases h : nthField s k <;> simp [resolveField, h]

theorem resolveField_cons (s : GoFields) (k : Nat) (rest : List Nat)
    (hrest : rest ≠ []) :
    resolveField s (k :: rest) =
      match nthField s k with
      | some (.mk _ _ _ (.strct sub)) => resolveField sub rest
      | _ => none := by
  cases hn : nthField s k with
  | none => cases rest with
    | nil => exact absurd rfl hrest
    | cons a l => simp [resolveField, hn]
  | some f =>
    cases rest with
    | nil => exact absurd rfl hrest
    | cons a l =>
      cases f with
      | mk n j m v =>
        cases v with
        | prim b => simp [resolveField, hn]
        | strct sub => simp [resolveField, hn]

theorem loopVals_none_iff (base : List Nat) (s : GoFields)
    (vals : List (List Nat)) :
    ∀ rem : List (List Nat),
      (loopVals base s rem vals = none ↔
        ∀ v ∈ rem, scanFields base 0 s v vals = none) := by
  intro rem
  induction rem with
  | nil => simp [loopVals]
  | cons v rest ih =>
    cases hscan : scanFields base 0 s v vals with
    | some e => simp [loopVals, hscan]
    | none => simp [loopVals, hscan, ih]

theorem loopVals_some (base : List Nat) (s : GoFields) (vals : List (List Nat))
    (er : ReqError) :
    ∀ rem : List (List Nat), loopVals base s rem vals = some er →
      ∃ v ∈ rem, scanFields base 0 s v vals = some er := by
  intro rem
  induction rem with
  | nil => intro h; simp [loopVals] at h
  | cons v rest ih =>
    intro h
    cases hscan : scanFields base 0 s v vals with
    | some e =>
      rw [loopVals, hscan] at h
      exact ⟨v, List.mem_cons_self v rest, hscan.trans h⟩
    | none =>
      rw [loopVals, hscan] at h
      obtain ⟨v', hv', hs'⟩ := ih h
      exact ⟨v', List.mem_cons_of_mem v hv', hs'⟩

theorem scanFields_nil (base : List Nat) (idx : Nat) (v : List Nat)
    (vals : List (List Nat)) : scanFields base idx .nil v vals = none := by
  rw [scanFields]

theorem scanFields_cons_prim (base : List Nat) (idx : Nat) (n j m : String)
    (b : Bool) (rest : GoFields) (v : List Nat) (vals : List (List Nat)) :
    scanFields base idx (.cons (.mk n j m (.prim b)) rest) v vals =
      if base ++ [idx] = v then
        (if b = true then some (mkReqError (.mk n j m (.prim b)))
         else scanFields base (idx + 1) rest v vals)
      else scanFields base (idx + 1) rest v vals := by
  rw [scanFields]
  simp [FieldVal.isZero]

theorem scanFields_cons_strct (base : List Nat) (idx : Nat) (n j m : String)
    (fs : GoFields) (rest : GoFields) (v : List Nat) (vals : List (List Nat)) :
    scanFields base idx (.cons (.mk n j m (.strct fs)) rest) v vals =
      match checkRequired (base ++ [idx]) fs vals with
      | some e => some e
      | none =>
        if base ++ [idx] = v then
          (if GoFields.allZero fs = true
           then some (mkReqError (.mk n j m (.strct fs)))
           else scanFields base (idx + 1) rest v vals)
        else scanFields base (idx + 1) rest v vals := by
  rw [scanFields]
  simp [FieldVal.isZero, checkRequired]

theorem ScanClean_nil (base : List Nat) (idx : Nat) (v : List Nat)
    (vals : List (List Nat)) : ScanClean base idx .nil v vals := by
  intro k f h
  simp [nthField] at h

theorem ScanClean_cons (base : List Nat) (idx : Nat) (f : GoField)
    (rest : GoFields) (v : List Nat) (vals : List (List Nat)) :
    ScanClean base idx (.cons f rest) v vals ↔
      ((∀ sub, GoField.val f = .strct sub →
          checkRequired (base ++ [idx]) sub vals = none) ∧
        (v = base ++ [idx] → FieldVal.isZero (GoField.val f) = false)) ∧
      ScanClean base (idx + 1) rest v vals := by
  constructor
  · intro h
    refine ⟨⟨?_, ?_⟩, ?_⟩
    · intro sub hs
      have := (h 0 f (by simp [nthField])).1 sub hs
      simpa using this
    · intro hv
      have := (h 0 f (by simp [nthField])).2
      simp at this
      exact this hv
    · intro k f' hf'
      have := h (k + 1) f' (by simpa [nthField] using hf')
      have heq : idx + (k + 1) = idx + 1 + k := by omega
      rw [heq] at this
      exact this
  · rintro ⟨⟨h1, h2⟩, hrest⟩ k f' hf'
    cases k with
    | zero =>
      simp only [nthField, Option.some.injEq] at hf'
      subst hf'
      refine ⟨?_, ?_⟩
      · intro sub hs
        simpa using h1 sub hs
      · intro hv
        apply h2
        simpa using hv
    | succ k =>
      simp only [nthField] at hf'
      have := hrest k f' hf'
      have heq : idx + (k + 1) = idx + 1 + k := by omega
      rw [heq]
      exact this

theorem scanFields_none_iff (base : List Nat) (v : List Nat)
    (vals : List (List Nat)) :
    ∀ (fields : GoFields) (idx : Nat),
      (scanFields base idx fields v vals = none ↔
        ScanClean base idx fields v vals) := by
  intro fields
  induction fields using GoFields.induct with
  | hnil =>
    intro idx
    rw [scanFields_nil]
    constructor
    · intro _
      exact ScanClean_nil base idx v vals
    · intro _
      rfl
  | hcons f rest ih =>
    intro idx
    rw [ScanClean_cons]
    cases f with
    | mk n j m fv =>
      cases fv with
      | prim b =>
        rw [scanFields_cons_prim]
        by_cases hv : base ++ [idx] = v
        · by_cases hb : b = true
          · subst hb
            rw [if_pos hv, if_pos rfl]
            constructor
            · intro h
              cases h
            · rintro ⟨⟨_, h2⟩, _⟩
              have := h2 hv.symm
              simp [GoField.val, FieldVal.isZero] at this
          · simp only [Bool.not_eq_true] at hb
            subst hb
            rw [if_pos hv, if_neg (by simp)]
            rw [ih (idx + 1)]
            constructor
            · intro h
              exact ⟨⟨by simp [GoField.val], by simp [GoField.val, FieldVal.isZero]⟩, h⟩
            · rintro ⟨_, h⟩
              exact h
        · have hv' : ¬v = base ++ [idx] := fun h => hv h.symm
          rw [if_neg hv]
          rw [ih (idx + 1)]
          constructor
          · intro h
            exact ⟨⟨by simp [GoField.val], fun hveq => absurd hveq hv'⟩, h⟩
          · rintro ⟨_, h⟩
            exact h
      | strct fs =>
        rw [scanFields_cons_strct]
        cases hsub : checkRequired (base ++ [idx]) fs vals with
        | some e =>
          constructor
          · intro h
            cases h
          · rintro ⟨⟨h1, _⟩, _⟩
            have := h1 fs (by simp [GoField.val])
            rw [this] at hsub
            cases hsub
        | none =>
          have hsubiff : ∀ sub, GoField.val (.mk n j m (.strct fs)) = .strct sub →
              checkRequired (base ++ [idx]) sub vals = none := by
            intro sub hs
            simp only [GoField.val, FieldVal.strct.injEq] at hs
            subst hs
            exact hsub
          by_cases hv : base ++ [idx] = v
          · by_cases hz : GoFields.allZero fs = true
            · rw [if_pos hv, if_pos hz]
              constructor
              · intro h
                cases h
              · rintro ⟨⟨_, h2⟩, _⟩
                have := h2 hv.symm
                simp [GoField.val, FieldVal.isZero, hz] at this
            · rw [if_pos hv, if_neg hz]
              rw [ih (idx + 1)]
              constructor
              · intro h
                refine ⟨⟨hsubiff, ?_⟩, h⟩
                intro _
                simp [GoField.val, FieldVal.isZero]
                exact Bool.not_eq_true _ ▸ hz
              · rintro ⟨_, h⟩
                exact h
          · rw [if_neg hv]
            rw [ih (idx + 1)]
            have hv' : ¬v = base ++ [idx] := fun h => hv h.symm
            constructor
            · intro h
              exact ⟨⟨hsubiff, fun hveq => absurd hveq hv'⟩, h⟩
            · rintro ⟨_, h⟩
              exact h

theorem scanFields_some (base : List Nat) (v : List Nat)
    (vals : List (List Nat)) (er : ReqError) :
    ∀ (fields : GoFields) (idx : Nat),
      scanFields base idx fields v vals = some er →
      ScanHit base idx fields v vals er := by
  intro fields
  induction fields using GoFields.induct with
  | hnil =>
    intro idx h
    rw [scanFields_nil] at h
    cases h
  | hcons f rest ih =>
    intro idx h
    have shift : ScanHit base (idx + 1) rest v vals er →
        ScanHit base idx (.cons f rest) v vals er := by
      rintro ⟨k, f', hf', hcase⟩
      refine ⟨k + 1, f', by simpa [nthField] using hf', ?_⟩
      have heq : idx + (k + 1) = idx + 1 + k := by omega
      rw [heq]
      exact hcase
    have head : ∀ hcase :
        (∃ sub, GoField.val f = .strct sub ∧
          checkRequired (base ++ [idx]) sub vals = some er) ∨
        (v = base ++ [idx] ∧ FieldVal.isZero (GoField.val f) = true ∧
          er = mkReqError f),
        ScanHit base idx (.cons f rest) v vals er := by
      intro hcase
      refine ⟨0, f, by simp [nthField], ?_⟩
      simpa using hcase
    cases f with
    | mk n j m fv =>
      cases fv with
      | prim b =>
        rw [scanFields_cons_prim] at h
        by_cases hv : base ++ [idx] = v
        · by_cases hb : b = true
          · subst hb
            rw [if_pos hv, if_pos rfl] at h
            apply head
            refine Or.inr ⟨hv.symm, ?_, ?_⟩
            · simp [GoField.val, FieldVal.isZero]
            · cases h; rfl
          · simp only [Bool.not_eq_true] at hb
            subst hb
            rw [if_pos hv, if_neg (by simp)] at h
            exact shift (ih (idx + 1) h)
        · rw [if_neg hv] at h
          exact shift (ih (idx + 1) h)
      | strct fs =>
        rw [scanFields_cons_strct] at h
        cases hsub : checkRequired (base ++ [idx]) fs vals with
        | some e =>
          rw [hsub] at h
          simp only [Option.some.injEq] at h
          subst h
          exact head (Or.inl ⟨fs, rfl, hsub⟩)
        | none =>
          rw [hsub] at h
          simp only [] at h
          by_cases hv : base ++ [idx] = v
          · by_cases hz : GoFields.allZero fs = true
            · rw [if_pos hv, if_pos hz] at h
              apply head
              refine Or.inr ⟨hv.symm, ?_, ?_⟩
              · simp [GoField.val, FieldVal.isZero, hz]
              · cases h; rfl
            · rw [if_pos hv, if_neg hz] at h
              exact shift (ih (idx + 1) h)
          · rw [if_neg hv] at h
            exact shift (ih (idx + 1) h)

theorem checkRequired_none_iff : ∀ (s : GoFields) (base : List Nat)
    (vals : List (List Nat)),
    (checkRequired base s vals = none ↔ CleanUnder base s vals) := by
  intro s base vals
  unfold checkRequired
  rw [loopVals_none_iff]
  constructor
  · intro h v hv rest f hveq hres
    have hscan := (scanFields_none_iff base v vals s 0).mp (h v hv)
    cases rest with
    | nil =>
      rw [resolveField_nil_path] at hres
      cases hres
    | cons k rest' =>
      cases rest' with
      | nil =>
        rw [resolveField_single] at hres
        have hcl := hscan k f hres
        apply hcl.2
        rw [Nat.zero_add]
        exact hveq
      | cons a l =>
        rw [resolveField_cons _ _ _ (by simp)] at hres
        cases hn : nthField s k with
        | none =>
          rw [hn] at hres
          cases hres
        | some f' =>
          cases f' with
          | mk n j m fv =>
            cases fv with
            | prim b =>
              rw [hn] at hres
              cases hres
            | strct sub =>
              rw [hn] at hres
              have hclean := hscan k (.mk n j m (.strct sub)) hn
              have hsubnone := hclean.1 sub (by simp [GoField.val])
              have hdec : sizeOf sub < sizeOf s :=
                lt_trans (val_strct_sizeOf _ sub (by simp [GoField.val]))
                  (nthField_sizeOf s k _ hn)
              have hcu := (checkRequired_none_iff sub (base ++ [0 + k]) vals).mp
                hsubnone
              refine hcu v hv (a :: l) f ?_ hres
              rw [hveq, Nat.zero_add]
              simp
  · intro h v hv
    rw [scanFields_none_iff]
    intro k f hf
    constructor
    · intro sub hs
      have hdec : sizeOf sub < sizeOf s :=
        lt_trans (val_strct_sizeOf f sub hs) (nthField_sizeOf s k f hf)
      rw [checkRequired_none_iff sub (base ++ [0 + k]) vals]
      intro v' hv' rest f' hveq' hres'
      have hrestne : rest ≠ [] := by
        intro hnil
        rw [hnil, resolveField_nil_path] at hres'
        cases hres'
      apply h v' hv' ((0 + k) :: rest) f'
      · rw [hveq']
        simp
      · rw [Nat.zero_add, resolveField_cons _ _ _ hrestne, hf]
        cases f with
        | mk n j m fv =>
          simp only [GoField.val] at hs
          subst hs
          exact hres'
    · intro hveq
      apply h v hv [0 + k] f hveq
      rw [resolveField_single, Nat.zero_add]
      exact hf
termination_by s => sizeOf s
decreasing_by
  all_goals assumption

theorem checkRequired_some_resolve : ∀ (s : GoFields) (base : List Nat)
    (vals : List (List Nat)) (er : ReqError),
    checkRequired base s vals = some er →
    ∃ v ∈ vals, ∃ rest f, v = base ++ rest ∧ resolveField s rest = some f ∧
      FieldVal.isZero (GoField.val f) = true ∧ er = mkReqError f := by
  intro s base vals er h
  unfold checkRequired at h
  obtain ⟨v, hv, hscan⟩ := loopVals_some base s vals er vals h
  obtain ⟨k, f, hf, hcase⟩ := scanFields_some base v vals er s 0 hscan
  rcases hcase with ⟨sub, hsubval, hsub⟩ | ⟨hveq, hz, herr⟩
  · have hdec : sizeOf sub < sizeOf s :=
      lt_trans (val_strct_sizeOf f sub hsubval) (nthField_sizeOf s k f hf)
    obtain ⟨v', hv', rest, f', hveq', hres', hz', herr'⟩ :=
      checkRequired_some_resolve sub (base ++ [0 + k]) vals er hsub
    have hrestne : rest ≠ [] := by
      intro hnil
      rw [hnil, resolveField_nil_path] at hres'
      cases hres'
    refine ⟨v', hv', (0 + k) :: rest, f', ?_, ?_, hz', herr'⟩
    · rw [hveq']
      simp
    · rw [Nat.zero_add, resolveField_cons _ _ _ hrestne, hf]
      cases f with
      | mk n j m fv =>
        simp only [GoField.val] at hsubval
        subst hsubval
        exact hres'
  · refine ⟨v, hv, [0 + k], f, hveq, ?_, hz, herr⟩
    rw [resolveField_single, Nat.zero_add]
    exact hf
termination_by s => sizeOf s
decreasing_by
  all_goals assumption

/-- Claim C9, counterexample to the claim as stated: a config struct with
two required fields `Alpha` (json tag `alpha`) and `Beta` (json tag `beta`),
both zero-valued.  `checkRequired` returns on the first match, so the
returned error carries only `Alpha`/`alpha`; `Beta` is also missing
(zero-valued and required) yet neither its field name nor its serialized
name occurs anywhere in the rendered error message — the error does not
list the missing fields, only the first one found. -/
theorem C9_counterexample :
    checkRequired []
        (.cons (.mk "Alpha" "alpha" "" (.prim true))
          (.cons (.mk "Beta" "beta" "" (.prim true)) .nil))
        [[0], [1]] = some ⟨"Alpha", "alpha"⟩ ∧
    resolveField
        (.cons (.mk "Alpha" "alpha" "" (.prim true))
          (.cons (.mk "Beta" "beta" "" (.prim true)) .nil))
        [1] = some (.mk "Beta" "beta" "" (.prim true)) ∧
    FieldVal.isZero (GoField.val (.mk "Beta" "beta" "" (.prim true))) = true ∧
    ¬ List.IsInfix "Beta".toList (ReqError.message ⟨"Alpha", "alpha"⟩).toList ∧
    ¬ List.IsInfix "beta".toList (ReqError.message ⟨"Alpha", "alpha"⟩).toList := by
  refine ⟨?_, ?_, ?_, ?_, ?_⟩
  · simp [checkRequired, loopVals, scanFields, mkReqError, GoField.name,
      GoField.configName, GoField.jsonTag, GoField.mapTag, FieldVal.isZero]
  · simp [resolveField, nthField]
  · decide
  · decide
  · decide

/-- Claim C9 (amended): the required-field check returns no error if and
only if no entry of `RequiredValues` points at a zero-valued field; when
one or more required fields are zero-valued it fails fast with an error
naming exactly one missing required field (not all of them), with that
field's serialized name computed as the json tag, falling back to the
mapstructure tag and then the Go field name (`mkReqError`). -/
theorem C9_required_check (s : GoFields) (vals : List (List Nat)) :
    (checkRequired [] s vals = none ↔ hasZeroRequired s vals = false) ∧
    (∀ er, checkRequired [] s vals = some er →
      ∃ v ∈ vals, ∃ f, resolveField s v = some f ∧
        FieldVal.isZero (GoField.val f) = true ∧ er = mkReqError f) := by
  constructor
  · rw [checkRequired_none_iff]
    constructor
    · intro h
      unfold hasZeroRequired
      rw [List.any_eq_false]
      intro v hv
      cases hres : resolveField s v with
      | none => simp
      | some f =>
        have := h v hv v f (by simp) hres
        simp [this]
    · intro h v hv rest f hveq hres
      unfold hasZeroRequired at h
      rw [List.any_eq_false] at h
      have hv' := h v hv
      simp only [List.nil_append] at hveq
      subst hveq
      rw [hres] at hv'
      simpa using hv'
  · intro er her
    obtain ⟨v, hv, rest, f, hveq, hres, hz, herr⟩ :=
      checkRequired_some_resolve s [] vals er her
    simp only [List.nil_append] at hveq
    subst hveq
    exact ⟨v, hv, f, hres, hz, herr⟩

theorem C9_witness :
    (checkRequired []
        (.cons (.mk "Gamma" "" "gam" (.prim false))
          (.cons (.mk "Delta" "delta" "" (.prim true)) .nil))
        [[0], [1]] = none ↔
      hasZeroRequired
        (.cons (.mk "Gamma" "" "gam" (.prim false))
          (.cons (.mk "Delta" "delta" "" (.prim true)) .nil))
        [[0], [1]] = false) ∧
    (∀ er, checkRequired []
        (.cons (.mk "Gamma" "" "gam" (.prim false))
          (.cons (.mk "Delta" "delta" "" (.prim true)) .nil))
        [[0], [1]] = some er →
      ∃ v ∈ [[0], [1]], ∃ f, resolveField
          (.cons (.mk "Gamma" "" "gam" (.prim false))
            (.cons (.mk "Delta" "delta" "" (.prim true)) .nil)) v = some f ∧
        FieldVal.isZero (GoField.val f) = true ∧ er = mkReqError f) :=
  C9_required_check
    (.cons (.mk "Gamma" "" "gam" (.prim false))
      (.cons (.mk "Delta" "delta" "" (.prim true)) .nil))
    [[0], [1]]
